import Mathlib

/-!
Shallow embedding of the two source files of `cip999/task-maker-rust`:

* `task-maker-format/src/terry/sanity_checks/statement.rs` — the
  `StatementPresent` sanity check for Terry tasks;
* `task-maker-test/src/test_interface.rs` — the `TestInterface` testing
  harness with its builder methods and `check_*` functions.

Rust `f64` values are modelled as rationals (`ℚ`), `u64`/`usize` as `ℕ`,
`PathBuf` as `String`, and `HashMap` as an association list (the collected
map of the source, keyed as the source keys it).  A Rust panic (from
`assert!`, `assert_eq!`, `panic!`, a missing `HashMap` key, an
`Option::unwrap` on `None`, or an integer underflow) is made explicit in
the return value of each check through the `CheckOutcome` type.
-/

namespace TaskMaker

/-- Outcome of running one of the `TestInterface` check functions:
`ok` means the function returned normally, `assertFailed` means an
`assert!`/`assert_eq!`/`panic!` fired, `panicked` means an implicit panic
(missing `HashMap` key, `Option::unwrap` on `None`, or integer underflow). -/
inductive CheckOutcome
  | ok
  | assertFailed
  | panicked
deriving DecidableEq, Repr

/-- Sequencing of Rust statements that may panic: the second statement runs
only when the first one did not panic. -/
def CheckOutcome.seq : CheckOutcome → CheckOutcome → CheckOutcome
  | .ok, b => b
  | .assertFailed, _ => .assertFailed
  | .panicked, _ => .panicked

/-- Rust `assert!(b)`: panics (assertion failure) when `b` is false. -/
def assertB (b : Bool) : CheckOutcome := if b then .ok else .assertFailed

/-- A Rust `for` loop whose body may panic: runs `f` on every element in
order, stopping at the first panic. -/
def checkEach {α : Type} (f : α → CheckOutcome) : List α → CheckOutcome
  | [] => .ok
  | x :: xs => (f x).seq (checkEach f xs)

/-- Lookup in an association list (the model of `HashMap` indexing). -/
def alookup {α β : Type} [DecidableEq α] (k : α) : List (α × β) → Option β
  | [] => none
  | p :: l => if p.1 = k then some p.2 else alookup k l

@[simp] theorem seq_eq_ok {a b : CheckOutcome} :
    a.seq b = .ok ↔ a = .ok ∧ b = .ok := by
  cases a <;> cases b <;> simp [CheckOutcome.seq]

@[simp] theorem assertB_eq_ok {b : Bool} : assertB b = .ok ↔ b = true := by
  cases b <;> simp [assertB]

theorem checkEach_eq_ok {α : Type} (f : α → CheckOutcome) (l : List α) :
    checkEach f l = .ok ↔ ∀ x ∈ l, f x = .ok := by
  induction l with
  | nil => simp [checkEach]
  | cons x xs ih => simp [checkEach, ih]

@[simp] theorem alookup_nil {α β : Type} [DecidableEq α] (k : α) :
    alookup k ([] : List (α × β)) = none := rfl

@[simp] theorem alookup_cons {α β : Type} [DecidableEq α] (k : α)
    (p : α × β) (l : List (α × β)) :
    alookup k (p :: l) = if p.1 = k then some p.2 else alookup k l := rfl

theorem alookup_isSome_iff_mem {α β : Type} [DecidableEq α] (k : α)
    (l : List (α × β)) : (alookup k l).isSome ↔ k ∈ l.map Prod.fst := by
  induction l with
  | nil => simp
  | cons p l ih =>
    by_cases h : p.1 = k
    · simp [alookup, h]
    · have h2 : ¬ k = p.1 := fun hh => h hh.symm
      simp [alookup, h, h2, ih]

/-! ## `terry/sanity_checks/statement.rs` -/

namespace terry

/-- The Terry task definition; the `StatementPresent` check only reads its
`path` field. -/
structure Task where
  path : String

end terry

/-- Modelled from the spec: the diagnostics channel messages, a sink of
Warning/Error entries.  Only the `Warning` variant is used by
`StatementPresent`. -/
inductive UIMessage
  | Warning (message : String)
  | Error (message : String)
deriving DecidableEq, Repr

/-- The `StatementPresent` sanity check (a unit struct in the source). -/
structure StatementPresent where

/-- Rust `StatementPresent::name`: returns the constant string. -/
def StatementPresent.name (_self : StatementPresent) : String :=
  "StatementPresent"

/-- The path `task.path.join("statement/statement.md")` whose existence
`pre_hook` tests. -/
def statementPath (task : terry.Task) : String :=
  task.path ++ "/statement/statement.md"

/-- Rust `StatementPresent::pre_hook`.  The filesystem is modelled by the list
`fs` of existing file paths and the diagnostics sender by the flag
`sendOk` (whether `eval.sender.send` succeeds).  The result is the list of
messages delivered to the sender together with the hook's `Result`: when
the statement file is missing a `Warning` is sent, and the `?` operator
propagates a failure of the send itself. -/
def StatementPresent.pre_hook (_self : StatementPresent) (fs : List String)
    (sendOk : Bool) (task : terry.Task) :
    List UIMessage × Except Unit Unit :=
  if fs.contains (statementPath task) then
    ([], Except.ok ())
  else if sendOk then
    ([UIMessage.Warning "statement/statement.md does not exist"], Except.ok ())
  else
    ([], Except.error ())

/-! ## `task-maker-test/src/test_interface.rs` -/

/-- Rust `f64::EPSILON`, the default tolerance of the `abs_diff_eq!` macro of the
`approx` crate used by every floating point assertion of the source. -/
def f64EPSILON : ℚ := 1 / 2 ^ 52

/-- Rust `abs_diff_eq!(a, b)` with the default `f64` epsilon. -/
def absDiffEq (a b : ℚ) : Bool := decide (|a - b| ≤ f64EPSILON)

/-- Modelled from the spec: `CompilationStatus`, one of
`Pending, Running, Done, Failed, Skipped` (the metadata carried by `Done`
and `Failed` is never inspected by the source under scrutiny and is
omitted). -/
inductive CompilationStatus
  | Pending
  | Running
  | Done
  | Failed
  | Skipped
deriving DecidableEq, Repr

/-- Modelled from the spec: `TestcaseEvaluationStatus`. -/
inductive TestcaseEvaluationStatus
  | Pending
  | Running
  | Accepted
  | WrongAnswer
  | Partial (score : ℚ)
  | TimeLimitExceeded
  | MemoryLimitExceeded
  | RuntimeError
  | Skipped
  | InternalError
deriving DecidableEq, Repr

/-- Modelled from the spec: the per-testcase evaluation record; only its
`status` field is read by the source under scrutiny. -/
structure SolutionTestcaseEval where
  status : TestcaseEvaluationStatus
deriving DecidableEq, Repr

/-- Modelled from the spec: per-subtask evaluation state — an optional
score and a mapping `TestcaseId → testcase state`. -/
structure SubtaskEvalState where
  score : Option ℚ
  testcases : List (ℕ × SolutionTestcaseEval)
deriving DecidableEq, Repr

/-- Modelled from the spec: `SolutionEvaluationState` — an optional overall
score and a mapping `SubtaskId → subtask evaluation state`. -/
structure SolutionEvaluationState where
  score : Option ℚ
  subtasks : List (ℕ × SubtaskEvalState)
deriving DecidableEq, Repr

/-- Modelled from the spec: a subtask of the task definition; only its
`max_score` is read by the source under scrutiny. -/
structure Subtask where
  max_score : ℚ
deriving DecidableEq, Repr

namespace ioi

/-- Modelled from the spec: the IOI task definition read by the checks —
optional time limit (seconds), optional memory limit (bytes) and the
mapping `SubtaskId → Subtask`. -/
structure Task where
  time_limit : Option ℚ
  memory_limit : Option ℕ
  subtasks : List (ℕ × Subtask)
deriving DecidableEq, Repr

end ioi

/-- Modelled from the spec: the slice of `UIState` read by the checks.
`compilations` and `evaluations` are the maps the checks build from it,
already keyed by file name. -/
structure UIState where
  task : ioi.Task
  max_score : ℚ
  compilations : List (String × CompilationStatus)
  evaluations : List (String × SolutionEvaluationState)
deriving DecidableEq, Repr

/-- The `TestInterface` structure: the expectations registered for one
task-maker run (`path` is kept for shape only). -/
structure TestInterface where
  path : String
  time_limit : Option ℚ
  memory_limit : Option ℕ
  max_score : Option ℚ
  must_compile : List String
  must_not_compile : List String
  not_compiled : List String
  subtask_scores : Option (List ℚ)
  solution_scores : List (String × List ℚ)
  solution_statuses : List (String × List TestcaseEvaluationStatus)
deriving DecidableEq, Repr

/-- Rust `HashMap::entry(k).or_insert(v)`: inserts only when the key is absent,
keeping an existing entry untouched. -/
def entryOrInsert {β : Type} (l : List (String × β)) (k : String) (v : β) :
    List (String × β) :=
  if (alookup k l).isSome then l else (k, v) :: l

/-- Rust `TestInterface::solution_score`: registers the expected per-subtask
scores of a solution via `entry(..).or_insert(..)`. -/
def TestInterface.solution_score (self : TestInterface) (solution : String)
    (scores : List ℚ) : TestInterface :=
  { self with
    solution_scores := entryOrInsert self.solution_scores solution scores }

/-- Rust `TestInterface::solution_statuses` (named `set_solution_statuses` here
because the source method shares its name with the field it updates):
registers the expected statuses of a solution via
`entry(..).or_insert(..)`. -/
def TestInterface.set_solution_statuses (self : TestInterface)
    (solution : String) (statuses : List TestcaseEvaluationStatus) :
    TestInterface :=
  { self with
    solution_statuses :=
      entryOrInsert self.solution_statuses solution statuses }

/-- Rust `TestInterface::check_limits`: each limit is asserted only when both
the expectation and the recorded value are present; a configured
`max_score` is always asserted against the recorded (non-optional)
`state.max_score`. -/
def TestInterface.check_limits (self : TestInterface) (state : UIState) :
    CheckOutcome :=
  (match self.time_limit, state.task.time_limit with
    | some expected, some actual => assertB (absDiffEq expected actual)
    | _, _ => .ok).seq <|
  (match self.memory_limit, state.task.memory_limit with
    | some expected, some actual => assertB (decide (expected = actual))
    | _, _ => .ok).seq <|
  (match self.max_score with
    | some max_score => assertB (absDiffEq max_score state.max_score)
    | none => .ok)

/-- Rust `TestInterface::check_compilation`: the `must_compile` loop panics
unless the file is recorded with status `Done`, the `must_not_compile`
loop panics unless it is recorded with status `Failed`, and the
`not_compiled` loop panics when the file is recorded at all. -/
def TestInterface.check_compilation (self : TestInterface)
    (state : UIState) : CheckOutcome :=
  (checkEach (fun name =>
    match alookup name state.compilations with
    | some CompilationStatus.Done => .ok
    | some _ => .assertFailed
    | none => .assertFailed) self.must_compile).seq <|
  (checkEach (fun name =>
    match alookup name state.compilations with
    | some CompilationStatus.Failed => .ok
    | some _ => .assertFailed
    | none => .assertFailed) self.must_not_compile).seq <|
  checkEach (fun name =>
    match alookup name state.compilations with
    | some _ => .assertFailed
    | none => .ok) self.not_compiled

/-- Rust `TestInterface::check_subtasks`: when `subtask_scores` is set, assert
the subtask count, then for each index `i` index the task's subtask map at
id `i` (a missing key panics) and assert the expected max score. -/
def TestInterface.check_subtasks (self : TestInterface) (state : UIState) :
    CheckOutcome :=
  match self.subtask_scores with
  | none => .ok
  | some scores =>
    (assertB (decide (scores.length = state.task.subtasks.length))).seq <|
    checkEach (fun i =>
      match scores[i]? with
      | none => .panicked
      | some expected =>
        match alookup i state.task.subtasks with
        | none => .panicked
        | some subtask => assertB (absDiffEq expected subtask.max_score))
      (List.range scores.length)

/-- The body of the `check_solution_scores` loop for one listed solution:
unwrap the overall score (`None` panics), assert it against the sum of the
expected scores, assert the subtask count, then for each subtask index the
map (missing key panics), unwrap its score (`None` panics) and assert it. -/
def checkSolutionScore (scores : List ℚ) (ev : SolutionEvaluationState) :
    CheckOutcome :=
  match ev.score with
  | none => .panicked
  | some actual_total =>
    (assertB (absDiffEq scores.sum actual_total)).seq <|
    (assertB (decide (scores.length = ev.subtasks.length))).seq <|
    checkEach (fun st =>
      match scores[st]? with
      | none => .panicked
      | some expected =>
        match alookup st ev.subtasks with
        | none => .panicked
        | some sub =>
          match sub.score with
          | none => .panicked
          | some actual => assertB (absDiffEq expected actual))
      (List.range scores.length)

/-- Rust `TestInterface::check_solution_scores`: for every solution listed in
`solution_scores`, index the evaluations map by file name (a missing key
panics) and run the per-solution checks. -/
def TestInterface.check_solution_scores (self : TestInterface)
    (state : UIState) : CheckOutcome :=
  checkEach (fun p =>
    match alookup p.1 state.evaluations with
    | none => .panicked
    | some ev => checkSolutionScore p.2 ev) self.solution_scores

/-- Insertion into a list of map entries sorted by the numeric key. -/
def insertByKey {β : Type} (x : ℕ × β) : List (ℕ × β) → List (ℕ × β)
  | [] => [x]
  | y :: ys => if x.1 ≤ y.1 then x :: y :: ys else y :: insertByKey x ys

/-- Sorting of a map's entries by key: the model of iterating
`keys().sorted()` and indexing back into the map (keys of a `HashMap` are
unique, so sorting the entries is the same traversal). -/
def sortByKey {β : Type} (l : List (ℕ × β)) : List (ℕ × β) :=
  l.foldr insertByKey []

/-- The flattened statuses of one solution, as built by
`check_solution_statuses`: subtasks ordered by id, and inside each subtask
the testcase statuses ordered by testcase id. -/
def solutionActuals (ev : SolutionEvaluationState) :
    List TestcaseEvaluationStatus :=
  (sortByKey ev.subtasks).flatMap fun st =>
    (sortByKey st.2.testcases).map fun tc => tc.2.status

/-- The expected status used by `check_solution_statuses` at index `i`:
`statuses[i]` when `i` is in range and `statuses[statuses.len() - 1]`
otherwise.  `none` models the panic of the subtraction
`statuses.len() - 1`, which underflows when the expected list is empty. -/
def expectedAt (statuses : List TestcaseEvaluationStatus) (i : ℕ) :
    Option TestcaseEvaluationStatus :=
  if i < statuses.length then statuses[i]?
  else if statuses.length = 0 then none
  else statuses[statuses.length - 1]?

/-- The body of the `check_solution_statuses` loop at one actual index:
`assert_eq!(expected, actual)` once both sides are obtained, a panic
otherwise. -/
def statusBody (statuses actuals : List TestcaseEvaluationStatus)
    (i : ℕ) : CheckOutcome :=
  match actuals[i]?, expectedAt statuses i with
  | some actual, some expected => assertB (decide (expected = actual))
  | _, _ => .panicked

/-- The `check_solution_statuses` comparison for one listed solution: for
every index of the flattened actual statuses, compare against the
expected list extended by repeating its last element. -/
def checkSolutionStatusesOne
    (statuses actuals : List TestcaseEvaluationStatus) : CheckOutcome :=
  checkEach (statusBody statuses actuals) (List.range actuals.length)

/-- Rust `TestInterface::check_solution_statuses`: for every solution listed in
`solution_statuses`, index the flattened evaluations map by file name (a
missing key panics) and compare the statuses. -/
def TestInterface.check_solution_statuses (self : TestInterface)
    (state : UIState) : CheckOutcome :=
  checkEach (fun p =>
    match alookup p.1 state.evaluations with
    | none => .panicked
    | some ev => checkSolutionStatusesOne p.2 (solutionActuals ev))
    self.solution_statuses

@[simp] theorem absDiffEq_eq_true {a b : ℚ} :
    absDiffEq a b = true ↔ |a - b| ≤ f64EPSILON := by
  simp [absDiffEq]

/-- A sample `TestInterface` with no expectation registered, used by the
concrete witnesses below. -/
def emptyTI : TestInterface where
  path := "task"
  time_limit := none
  memory_limit := none
  max_score := none
  must_compile := []
  must_not_compile := []
  not_compiled := []
  subtask_scores := none
  solution_scores := []
  solution_statuses := []

/-- A sample `UIState`, used by the concrete witnesses below. -/
def sampleState : UIState where
  task :=
    { time_limit := some 1
      memory_limit := some 256
      subtasks := [(0, ⟨40⟩), (1, ⟨60⟩)] }
  max_score := 100
  compilations := [("ok.cpp", CompilationStatus.Done),
    ("bad.cpp", CompilationStatus.Failed),
    ("skip.cpp", CompilationStatus.Skipped)]
  evaluations :=
    [("sol.cpp",
      { score := some 100
        subtasks :=
          [(0, { score := some 40, testcases := [(0, ⟨.Accepted⟩)] }),
           (1, { score := some 60, testcases := [(0, ⟨.Accepted⟩)] })] }),
     ("unresolved.cpp",
      { score := none
        subtasks := [(0, { score := some 0, testcases := [] })] })]

/-- Claim C6: `check_limits` asserts the time (resp. memory) limit exactly
when both the configured expectation and the recorded value are `Some`; if
either side is `None` no assertion is made for that limit, while a
configured `max_score` is always asserted against the recorded max
score. -/
theorem check_limits_ok_iff (ti : TestInterface) (state : UIState) :
    ti.check_limits state = .ok ↔
      ((∀ e a, ti.time_limit = some e → state.task.time_limit = some a →
          |e - a| ≤ f64EPSILON) ∧
       (∀ e a, ti.memory_limit = some e →
          state.task.memory_limit = some a → e = a) ∧
       (∀ m, ti.max_score = some m → |m - state.max_score| ≤ f64EPSILON)) := by
  cases h1 : ti.time_limit <;> cases h2 : state.task.time_limit <;>
  cases h3 : ti.memory_limit <;> cases h4 : state.task.memory_limit <;>
  cases h5 : ti.max_score <;>
  simp [TestInterface.check_limits, h1, h2, h3, h4, h5]

/-- Witness for C6: a configured time limit and max score matching the
recorded ones, the memory limit left unconfigured. -/
theorem check_limits_ok_iff_witness :
    ({ emptyTI with time_limit := some 1, max_score := some 100
       } : TestInterface).check_limits sampleState = .ok :=
  (check_limits_ok_iff _ _).mpr (by
    refine ⟨?_, ?_, ?_⟩ <;>
      simp [emptyTI, sampleState] <;> norm_num [f64EPSILON])

/-- The `must_compile` loop body returns `ok` exactly on a recorded `Done`
status. -/
theorem mustCompileBody_ok (comps : List (String × CompilationStatus))
    (name : String) :
    (match alookup name comps with
      | some CompilationStatus.Done => CheckOutcome.ok
      | some _ => CheckOutcome.assertFailed
      | none => CheckOutcome.assertFailed) = CheckOutcome.ok ↔
      alookup name comps = some CompilationStatus.Done := by
  cases h : alookup name comps with
  | none => simp
  | some s => cases s <;> simp

/-- The `must_not_compile` loop body returns `ok` exactly on a recorded
`Failed` status. -/
theorem mustNotCompileBody_ok (comps : List (String × CompilationStatus))
    (name : String) :
    (match alookup name comps with
      | some CompilationStatus.Failed => CheckOutcome.ok
      | some _ => CheckOutcome.assertFailed
      | none => CheckOutcome.assertFailed) = CheckOutcome.ok ↔
      alookup name comps = some CompilationStatus.Failed := by
  cases h : alookup name comps with
  | none => simp
  | some s => cases s <;> simp

/-- Helper: `check_compilation` returns normally exactly when all three
expectation lists are satisfied. -/
theorem check_compilation_ok_iff (ti : TestInterface) (state : UIState) :
    ti.check_compilation state = .ok ↔
      ((∀ name ∈ ti.must_compile,
          alookup name state.compilations = some CompilationStatus.Done) ∧
       (∀ name ∈ ti.must_not_compile,
          alookup name state.compilations = some CompilationStatus.Failed) ∧
       (∀ name ∈ ti.not_compiled,
          alookup name state.compilations = none)) := by
  unfold TestInterface.check_compilation
  rw [seq_eq_ok, seq_eq_ok, checkEach_eq_ok, checkEach_eq_ok,
    checkEach_eq_ok]
  refine and_congr (forall_congr' fun name => forall_congr' fun _ => ?_)
    (and_congr (forall_congr' fun name => forall_congr' fun _ => ?_)
      (forall_congr' fun name => forall_congr' fun _ => ?_))
  · exact mustCompileBody_ok state.compilations name
  · exact mustNotCompileBody_ok state.compilations name
  · cases h : alookup name state.compilations <;> simp

/-- Claim C5: `check_compilation` panics if and only if some
`must_compile` file is absent or not `Done`, or some `must_not_compile`
file is absent or not `Failed`, or some `not_compiled` file is recorded at
all; in particular a recorded status `Skipped`, `Pending` or `Running`
fails both a `must_compile` and a `must_not_compile` expectation. -/
theorem check_compilation_panics_iff (ti : TestInterface)
    (state : UIState) :
    (ti.check_compilation state ≠ .ok ↔
      ((∃ name ∈ ti.must_compile,
          alookup name state.compilations ≠ some CompilationStatus.Done) ∨
       (∃ name ∈ ti.must_not_compile,
          alookup name state.compilations ≠ some CompilationStatus.Failed) ∨
       (∃ name ∈ ti.not_compiled,
          (alookup name state.compilations).isSome))) ∧
    (∀ name s, alookup name state.compilations = some s →
      (s = CompilationStatus.Skipped ∨ s = CompilationStatus.Pending ∨
        s = CompilationStatus.Running) →
      (name ∈ ti.must_compile ∨ name ∈ ti.must_not_compile) →
      ti.check_compilation state ≠ .ok) := by
  have hiff : ti.check_compilation state ≠ .ok ↔
      ((∃ name ∈ ti.must_compile,
          alookup name state.compilations ≠ some CompilationStatus.Done) ∨
       (∃ name ∈ ti.must_not_compile,
          alookup name state.compilations ≠ some CompilationStatus.Failed) ∨
       (∃ name ∈ ti.not_compiled,
          (alookup name state.compilations).isSome)) := by
    rw [Ne, check_compilation_ok_iff, not_and_or, not_and_or]
    refine or_congr ?_ (or_congr ?_ ?_)
    · push_neg
      rfl
    · push_neg
      rfl
    · push_neg
      exact exists_congr fun name => and_congr_right fun _ =>
        Option.ne_none_iff_isSome.trans (by simp)
  refine ⟨hiff, fun name s hlook hs hmem => hiff.mpr ?_⟩
  rcases hmem with hmem | hmem
  · exact Or.inl ⟨name, hmem, by
      rw [hlook]
      rcases hs with h | h | h <;> simp [h]⟩
  · exact Or.inr (Or.inl ⟨name, hmem, by
      rw [hlook]
      rcases hs with h | h | h <;> simp [h]⟩)

/-- Witness for C5: `skip.cpp` is recorded as `Skipped`, so listing it in
`must_compile` makes the check panic. -/
theorem check_compilation_panics_iff_witness :
    ({ emptyTI with must_compile := ["skip.cpp"]
       } : TestInterface).check_compilation sampleState ≠ .ok :=
  (check_compilation_panics_iff
      ({ emptyTI with must_compile := ["skip.cpp"] }) sampleState).2
    "skip.cpp" CompilationStatus.Skipped rfl (Or.inl rfl)
    (Or.inl (by simp [emptyTI]))

/-- The `check_subtasks` loop body returns `ok` exactly when the subtask
with id `i` exists in the task and its max score matches the expectation
within tolerance. -/
theorem subtaskBody_ok (subtasks : List (ℕ × Subtask)) (i : ℕ)
    (expected : ℚ) :
    (match alookup i subtasks with
      | none => CheckOutcome.panicked
      | some subtask => assertB (absDiffEq expected subtask.max_score)) =
      CheckOutcome.ok ↔
      ∃ subtask, alookup i subtasks = some subtask ∧
        |expected - subtask.max_score| ≤ f64EPSILON := by
  cases h : alookup i subtasks with
  | none => simp
  | some s => simp

/-- Claim C4: with `subtask_scores` set to `n` expected scores,
`check_subtasks` returns normally exactly when the task has `n` subtasks
and every index `i < n` finds a subtask with id `i` whose max score
matches; and (given the count assertion passed) the indexing by ids
`0..n` is well-defined — no missing-key panic — precisely when the
subtask identifiers are dense-numbered from `0`. -/
theorem check_subtasks_spec (ti : TestInterface) (state : UIState)
    (scores : List ℚ) (hs : ti.subtask_scores = some scores)
    (hnodup : (state.task.subtasks.map Prod.fst).Nodup) :
    (ti.check_subtasks state = .ok ↔
      (scores.length = state.task.subtasks.length ∧
        ∀ i (hi : i < scores.length), ∃ subtask,
          alookup i state.task.subtasks = some subtask ∧
          |scores[i] - subtask.max_score| ≤ f64EPSILON)) ∧
    (scores.length = state.task.subtasks.length →
      ((∀ i < scores.length, (alookup i state.task.subtasks).isSome) ↔
        (∀ k, k ∈ state.task.subtasks.map Prod.fst ↔
          k < scores.length))) := by
  constructor
  · unfold TestInterface.check_subtasks
    rw [hs, seq_eq_ok, checkEach_eq_ok, assertB_eq_ok, decide_eq_true_eq]
    refine and_congr Iff.rfl ?_
    constructor
    · intro h i hi
      have hb := h i (List.mem_range.mpr hi)
      rw [List.getElem?_eq_getElem hi] at hb
      exact (subtaskBody_ok _ _ _).mp hb
    · intro h i hi
      have hi2 := List.mem_range.mp hi
      rw [List.getElem?_eq_getElem hi2]
      exact (subtaskBody_ok _ _ _).mpr (h i hi2)
  · intro hlen
    have hkeys : (state.task.subtasks.map Prod.fst).length =
        scores.length := by
      rw [List.length_map, ← hlen]
    constructor
    · intro h k
      have hsub : Finset.range scores.length ⊆
          (state.task.subtasks.map Prod.fst).toFinset := by
        intro j hj
        rw [List.mem_toFinset]
        have hj2 := h j (Finset.mem_range.mp hj)
        rwa [alookup_isSome_iff_mem] at hj2
      have hcard : ((state.task.subtasks.map Prod.fst).toFinset).card ≤
          (Finset.range scores.length).card := by
        rw [List.toFinset_card_of_nodup hnodup, Finset.card_range, hkeys]
      have heq := Finset.eq_of_subset_of_card_le hsub hcard
      constructor
      · intro hk
        have hk2 : k ∈ (state.task.subtasks.map Prod.fst).toFinset :=
          List.mem_toFinset.mpr hk
        rw [← heq] at hk2
        exact Finset.mem_range.mp hk2
      · intro hk
        have hk2 : k ∈ Finset.range scores.length :=
          Finset.mem_range.mpr hk
        rw [heq] at hk2
        exact List.mem_toFinset.mp hk2
    · intro h i hi
      rw [alookup_isSome_iff_mem]
      exact (h i).mpr hi

/-- Witness for C4: two expected scores against the two dense-numbered
subtasks of `sampleState`. -/
theorem check_subtasks_spec_witness :
    ({ emptyTI with subtask_scores := some [40, 60]
       } : TestInterface).check_subtasks sampleState = .ok ∧
    (1 : ℕ) ∈ sampleState.task.subtasks.map Prod.fst :=
  have hspec := check_subtasks_spec
    ({ emptyTI with subtask_scores := some [40, 60] }) sampleState
    [40, 60] rfl (by decide)
  ⟨hspec.1.mpr ⟨rfl, by
      intro i hi
      have hi2 : i < 2 := by simpa using hi
      interval_cases i
      · exact ⟨⟨40⟩, rfl, by norm_num [f64EPSILON]⟩
      · exact ⟨⟨60⟩, rfl, by norm_num [f64EPSILON]⟩⟩,
    ((hspec.2 rfl).mp (by decide) 1).mpr (by norm_num)⟩

/-- The inner loop body of `checkSolutionScore` returns `ok` exactly when
the subtask exists, its score is resolved, and it matches the expected
score within tolerance. -/
theorem solutionSubtaskBody_ok (subtasks : List (ℕ × SubtaskEvalState))
    (st : ℕ) (expected : ℚ) :
    (match alookup st subtasks with
      | none => CheckOutcome.panicked
      | some sub =>
        match sub.score with
        | none => CheckOutcome.panicked
        | some actual => assertB (absDiffEq expected actual)) =
      CheckOutcome.ok ↔
      ∃ sub, alookup st subtasks = some sub ∧
        ∃ v, sub.score = some v ∧ |expected - v| ≤ f64EPSILON := by
  cases h : alookup st subtasks with
  | none => simp
  | some sub =>
    cases hv : sub.score with
    | none => simp [hv]
    | some v => simp [hv]

/-- Characterization of the per-solution score check. -/
theorem checkSolutionScore_ok (scores : List ℚ)
    (ev : SolutionEvaluationState) :
    checkSolutionScore scores ev = .ok ↔
      ∃ s, ev.score = some s ∧ |scores.sum - s| ≤ f64EPSILON ∧
        scores.length = ev.subtasks.length ∧
        ∀ i (hi : i < scores.length), ∃ sub,
          alookup i ev.subtasks = some sub ∧
          ∃ v, sub.score = some v ∧ |scores[i] - v| ≤ f64EPSILON := by
  unfold checkSolutionScore
  cases hsc : ev.score with
  | none => simp
  | some s =>
    rw [seq_eq_ok, seq_eq_ok, checkEach_eq_ok, assertB_eq_ok,
      assertB_eq_ok, decide_eq_true_eq, absDiffEq_eq_true]
    simp only [Option.some.injEq, exists_eq_left']
    refine and_congr Iff.rfl (and_congr Iff.rfl ?_)
    constructor
    · intro h i hi
      have hb := h i (List.mem_range.mpr hi)
      rw [List.getElem?_eq_getElem hi] at hb
      exact (solutionSubtaskBody_ok _ _ _).mp hb
    · intro h i hmem
      have hi := List.mem_range.mp hmem
      rw [List.getElem?_eq_getElem hi]
      exact (solutionSubtaskBody_ok _ _ _).mpr (h i hi)

/-- Helper: `check_solution_scores` returns normally exactly when every listed
solution is found in the evaluations map and passes the per-solution
check. -/
theorem check_solution_scores_ok (ti : TestInterface) (state : UIState) :
    ti.check_solution_scores state = .ok ↔
      ∀ p ∈ ti.solution_scores, ∃ ev,
        alookup p.1 state.evaluations = some ev ∧
        checkSolutionScore p.2 ev = .ok := by
  unfold TestInterface.check_solution_scores
  rw [checkEach_eq_ok]
  refine forall_congr' fun p => forall_congr' fun _ => ?_
  cases h : alookup p.1 state.evaluations with
  | none => simp
  | some ev => simp

/-- Claim C2: `check_solution_scores` passes exactly when, for every
solution listed in `solution_scores`, the recorded overall score equals
the sum of the expected per-subtask scores within tolerance, the number
of recorded subtasks equals the number of expected scores, and each
subtask's recorded score equals the corresponding expected score within
the same tolerance (all the recorded values being resolved). -/
theorem check_solution_scores_spec (ti : TestInterface)
    (state : UIState) :
    ti.check_solution_scores state = .ok ↔
      ∀ p ∈ ti.solution_scores, ∃ ev,
        alookup p.1 state.evaluations = some ev ∧
        ∃ s, ev.score = some s ∧ |p.2.sum - s| ≤ f64EPSILON ∧
          p.2.length = ev.subtasks.length ∧
          ∀ i (hi : i < p.2.length), ∃ sub,
            alookup i ev.subtasks = some sub ∧
            ∃ v, sub.score = some v ∧ |p.2[i] - v| ≤ f64EPSILON := by
  rw [check_solution_scores_ok]
  exact forall_congr' fun p => forall_congr' fun _ =>
    exists_congr fun ev => and_congr Iff.rfl (checkSolutionScore_ok _ _)

/-- Witness for C2: the fully resolved `sol.cpp` of `sampleState` with
expected subtask scores 40 and 60 summing to its overall score 100. -/
theorem check_solution_scores_spec_witness :
    ({ emptyTI with solution_scores := [("sol.cpp", [40, 60])]
       } : TestInterface).check_solution_scores sampleState = .ok :=
  (check_solution_scores_spec _ sampleState).mpr (by
    intro p hp
    simp only [List.mem_singleton] at hp
    subst hp
    refine ⟨_, rfl, 100, rfl, by norm_num [f64EPSILON], rfl, ?_⟩
    intro i hi
    have hi2 : i < 2 := by simpa using hi
    interval_cases i
    · exact ⟨_, rfl, 40, rfl, by norm_num [f64EPSILON]⟩
    · exact ⟨_, rfl, 60, rfl, by norm_num [f64EPSILON]⟩)

/-- Claim C7: if a solution listed in `solution_scores` is found in the
evaluations but any of its `Option`-valued scores that the check unwraps
is still `None` — the overall score, or the score of a subtask indexed by
the loop (id below the number of expected scores) — then
`check_solution_scores` panics; it never treats the missing value as a
zero score. -/
theorem check_solution_scores_unresolved_panics (ti : TestInterface)
    (state : UIState) (solution : String) (scores : List ℚ)
    (ev : SolutionEvaluationState)
    (hmem : (solution, scores) ∈ ti.solution_scores)
    (hev : alookup solution state.evaluations = some ev)
    (hnone : ev.score = none ∨
      ∃ i, i < scores.length ∧ ∃ sub,
        alookup i ev.subtasks = some sub ∧ sub.score = none) :
    ti.check_solution_scores state ≠ .ok := by
  intro hok
  obtain ⟨ev2, hev2, hsc⟩ :=
    (check_solution_scores_ok ti state).mp hok (solution, scores) hmem
  rw [hev] at hev2
  obtain rfl := Option.some.inj hev2
  rcases hnone with hscore | ⟨i, hi, sub, hsub, hsubnone⟩
  · simp [checkSolutionScore, hscore] at hsc
  · obtain ⟨s, hs, hsum, hlen, hall⟩ :=
      (checkSolutionScore_ok scores ev).mp hsc
    obtain ⟨sub2, hsub2, v, hv, hclose⟩ := hall i hi
    rw [hsub] at hsub2
    obtain rfl := Option.some.inj hsub2
    rw [hv] at hsubnone
    exact Option.noConfusion hsubnone

/-- A sample `UIState` whose only solution has a resolved overall score
but an unresolved score on subtask 0, exercising the per-subtask unwrap. -/
def sampleStateSubtaskNone : UIState where
  task :=
    { time_limit := none
      memory_limit := none
      subtasks := [(0, ⟨100⟩)] }
  max_score := 100
  compilations := []
  evaluations :=
    [("part.cpp",
      { score := some 0
        subtasks := [(0, { score := none, testcases := [] })] })]

/-- Witness for C7, covering both unwrap sites: `unresolved.cpp` of
`sampleState` has an undefined overall score, and `part.cpp` of
`sampleStateSubtaskNone` has a resolved overall score but an undefined
subtask score; in both runs the expected scores sum to `0`, yet the check
panics instead of passing. -/
theorem check_solution_scores_unresolved_panics_witness :
    ({ emptyTI with solution_scores := [("unresolved.cpp", [0])]
       } : TestInterface).check_solution_scores sampleState ≠ .ok ∧
    ({ emptyTI with solution_scores := [("part.cpp", [0])]
       } : TestInterface).check_solution_scores sampleStateSubtaskNone ≠
      .ok :=
  ⟨check_solution_scores_unresolved_panics _ sampleState "unresolved.cpp"
      [0] { score := none
            subtasks := [(0, { score := some 0, testcases := [] })] }
      (List.mem_singleton.mpr rfl) rfl (Or.inl rfl),
    check_solution_scores_unresolved_panics _ sampleStateSubtaskNone
      "part.cpp" [0]
      { score := some 0
        subtasks := [(0, { score := none, testcases := [] })] }
      (List.mem_singleton.mpr rfl) rfl
      (Or.inr ⟨0, by decide, _, rfl, rfl⟩)⟩

/-- Helper: `expectedAt` on a nonempty expected list is exactly the in-range
element or the repeated last element. -/
theorem expectedAt_eq (statuses : List TestcaseEvaluationStatus)
    (hne : statuses ≠ []) (i : ℕ) :
    expectedAt statuses i =
      (if i < statuses.length then statuses[i]?
        else statuses[statuses.length - 1]?) := by
  have hlen : statuses.length ≠ 0 := by
    simpa [List.length_eq_zero] using hne
  unfold expectedAt
  by_cases hil : i < statuses.length <;> simp [hil, hlen]

/-- Characterization of `statusBody` on a nonempty expected list and an
in-range index. -/
theorem statusBody_ok (statuses actuals : List TestcaseEvaluationStatus)
    (i : ℕ) (hi : i < actuals.length) (hne : statuses ≠ []) :
    statusBody statuses actuals i = .ok ↔
      actuals[i]? = expectedAt statuses i := by
  have hlen : statuses.length ≠ 0 := by
    simpa [List.length_eq_zero] using hne
  obtain ⟨e, he⟩ : ∃ e, expectedAt statuses i = some e := by
    rw [expectedAt_eq statuses hne i]
    by_cases hil : i < statuses.length
    · rw [if_pos hil]
      exact ⟨_, List.getElem?_eq_getElem hil⟩
    · have hl2 : statuses.length - 1 < statuses.length := by omega
      rw [if_neg hil]
      exact ⟨_, List.getElem?_eq_getElem hl2⟩
  unfold statusBody
  rw [List.getElem?_eq_getElem hi, he]
  show assertB (decide (e = actuals[i])) = CheckOutcome.ok ↔
    some (actuals[i]) = some e
  rw [assertB_eq_ok, decide_eq_true_eq]
  simp [eq_comm]

/-- Claim C10: `check_solution_statuses` compares each actual status
against the expected list extended by repeating its last element, and
with an empty expected list and at least one actual status it panics
(index underflow) instead of passing or failing a comparison. -/
theorem check_solution_statuses_spec
    (statuses actuals : List TestcaseEvaluationStatus) :
    (statuses = [] → actuals ≠ [] →
      checkSolutionStatusesOne statuses actuals = .panicked) ∧
    (statuses ≠ [] →
      (checkSolutionStatusesOne statuses actuals = .ok ↔
        ∀ i, i < actuals.length →
          actuals[i]? = (if i < statuses.length then statuses[i]?
            else statuses[statuses.length - 1]?))) := by
  constructor
  · rintro rfl hne
    cases actuals with
    | nil => exact absurd rfl hne
    | cons a rest =>
      have h0 : statusBody [] (a :: rest) 0 = .panicked := by
        simp [statusBody, expectedAt]
      simp [checkSolutionStatusesOne, List.range_succ_eq_map, checkEach,
        h0, CheckOutcome.seq]
  · intro hne
    unfold checkSolutionStatusesOne
    rw [checkEach_eq_ok]
    constructor
    · intro h i hi
      rw [← expectedAt_eq statuses hne i]
      exact (statusBody_ok statuses actuals i hi hne).mp
        (h i (List.mem_range.mpr hi))
    · intro h i hmem
      have hi := List.mem_range.mp hmem
      refine (statusBody_ok statuses actuals i hi hne).mpr ?_
      rw [expectedAt_eq statuses hne i]
      exact h i hi

/-- Witness for C10: the empty expected list panics against one actual
status, while a singleton expected list is repeated over two actual
statuses. -/
theorem check_solution_statuses_spec_witness :
    checkSolutionStatusesOne [] [TestcaseEvaluationStatus.Accepted] =
      .panicked ∧
    checkSolutionStatusesOne [TestcaseEvaluationStatus.Accepted]
      [TestcaseEvaluationStatus.Accepted,
        TestcaseEvaluationStatus.Accepted] = .ok :=
  ⟨(check_solution_statuses_spec [] [.Accepted]).1 rfl (by decide),
    ((check_solution_statuses_spec [.Accepted]
        [.Accepted, .Accepted]).2 (by decide)).mpr (by decide)⟩

/-- Claim C9: registering expectations for the same solution path twice
is first-write-wins — the second call leaves the structure literally
unchanged — the first `solution_score` call on a fresh path registers its
scores, and each builder call modifies only its own map, leaving every
other field unchanged. -/
theorem solution_score_first_write_wins (ti : TestInterface)
    (solution : String) (s1 s2 : List ℚ)
    (t1 t2 : List TestcaseEvaluationStatus) :
    (ti.solution_score solution s1).solution_score solution s2 =
        ti.solution_score solution s1 ∧
    (ti.set_solution_statuses solution t1).set_solution_statuses solution
        t2 = ti.set_solution_statuses solution t1 ∧
    (alookup solution ti.solution_scores = none →
      alookup solution (ti.solution_score solution s1).solution_scores =
        some s1) ∧
    (ti.solution_score solution s1).path = ti.path ∧
    (ti.solution_score solution s1).time_limit = ti.time_limit ∧
    (ti.solution_score solution s1).memory_limit = ti.memory_limit ∧
    (ti.solution_score solution s1).max_score = ti.max_score ∧
    (ti.solution_score solution s1).must_compile = ti.must_compile ∧
    (ti.solution_score solution s1).must_not_compile =
      ti.must_not_compile ∧
    (ti.solution_score solution s1).not_compiled = ti.not_compiled ∧
    (ti.solution_score solution s1).subtask_scores = ti.subtask_scores ∧
    (ti.solution_score solution s1).solution_statuses =
      ti.solution_statuses ∧
    (ti.set_solution_statuses solution t1).solution_scores =
      ti.solution_scores := by
  refine ⟨?_, ?_, ?_, rfl, rfl, rfl, rfl, rfl, rfl, rfl, rfl, rfl, rfl⟩
  · by_cases h : (alookup solution ti.solution_scores).isSome <;>
      simp [TestInterface.solution_score, entryOrInsert, h]
  · by_cases h : (alookup solution ti.solution_statuses).isSome <;>
      simp [TestInterface.set_solution_statuses, entryOrInsert, h]
  · intro h
    simp [TestInterface.solution_score, entryOrInsert, h]

/-- Witness for C9: a double registration on the empty interface keeps
the first scores. -/
theorem solution_score_first_write_wins_witness :
    (emptyTI.solution_score "sol.cpp" [40, 60]).solution_score "sol.cpp"
        [0, 0] = emptyTI.solution_score "sol.cpp" [40, 60] ∧
    alookup "sol.cpp"
        (emptyTI.solution_score "sol.cpp" [40, 60]).solution_scores =
      some [40, 60] :=
  have h := solution_score_first_write_wins emptyTI "sol.cpp" [40, 60]
    [0, 0] [] []
  ⟨h.1, h.2.2.1 rfl⟩

/-- Claim C1: for every task whose directory does not contain
`statement/statement.md`, `StatementPresent::pre_hook` (with a working
diagnostics sender) sends exactly one `Warning` message with the exact text
`statement/statement.md does not exist` and returns `Ok`; for a task whose
directory does contain that file it sends no message at all, whatever the
sender's state, and returns `Ok`. -/
theorem statement_present_pre_hook_spec (c : StatementPresent)
    (fs : List String) (task : terry.Task) :
    (fs.contains (statementPath task) = false →
      c.pre_hook fs true task =
        ([UIMessage.Warning "statement/statement.md does not exist"],
          Except.ok ())) ∧
    (∀ sendOk : Bool, fs.contains (statementPath task) = true →
      c.pre_hook fs sendOk task = ([], Except.ok ())) := by
  refine ⟨fun h => ?_, fun sendOk h => ?_⟩
  · simp at h
    simp [StatementPresent.pre_hook, h]
  · simp at h
    simp [StatementPresent.pre_hook, h]

/-- Witness for C1: a task directory with the statement file missing, and
one with it present. -/
theorem statement_present_pre_hook_spec_witness :
    StatementPresent.pre_hook ⟨⟩ [] true ⟨"task"⟩ =
        ([UIMessage.Warning "statement/statement.md does not exist"],
          Except.ok ()) ∧
    StatementPresent.pre_hook ⟨⟩ ["task/statement/statement.md"] false
        ⟨"task"⟩ = ([], Except.ok ()) :=
  ⟨(statement_present_pre_hook_spec ⟨⟩ [] ⟨"task"⟩).1 (by decide),
    (statement_present_pre_hook_spec ⟨⟩ ["task/statement/statement.md"]
      ⟨"task"⟩).2 false (by decide)⟩

/-- Claim C3: the hook's `Result` is `Err` exactly when sending the
diagnostic message itself fails, i.e., when the statement file is missing
(so a send is attempted) and the sender is broken; a missing statement
alone never yields `Err`. -/
theorem statement_present_pre_hook_err_iff (c : StatementPresent)
    (fs : List String) (sendOk : Bool) (task : terry.Task) :
    (c.pre_hook fs sendOk task).2 = Except.error () ↔
      fs.contains (statementPath task) = false ∧ sendOk = false := by
  by_cases h : statementPath task ∈ fs <;> cases sendOk <;>
    simp [StatementPresent.pre_hook, h]

/-- Claim C8: `StatementPresent::name` returns exactly the string
`StatementPresent` for every instance. -/
theorem statement_present_name (c : StatementPresent) :
    c.name = "StatementPresent" := rfl

end TaskMaker
